import Mathlib

/-
  Verification of the instruction-to-action translation and execution engine
  of chatgpt_chrome.py: action decoding, manual command parsing, page-context
  snapshotting, action execution, and the session loop.

  Python strings are modelled as List Char; JSON values as produced by
  json.loads are the inductive Json; Python exceptions are the inductive
  PyErr.  External collaborators (the browser page, the completion API and
  json.loads itself) are modelled as oracles threaded through an Env record.
-/

set_option maxHeartbeats 1000000

namespace Chrome

/-- Characters of a string literal, for writing Python strings as char lists. -/
def cs (s : String) : List Char := s.toList

/-- Python str whitespace test, restricted to the ASCII whitespace characters
recognised by str.split and str.strip. -/
def pyIsSpace (c : Char) : Bool :=
  c = ' ' || c = '\t' || c = '\n' || c = '\r' || c = Char.ofNat 11 || c = Char.ofNat 12

/-- JSON values as returned by json.loads. -/
inductive Json where
  | null
  | bool (b : Bool)
  | num (n : Int)
  | str (s : List Char)
  | arr (elems : List Json)
  | obj (fields : List (List Char × Json))

/-- Python dict.get on a decoded JSON object (assoc lookup on the first key). -/
def jget (k : List Char) (d : List (List Char × Json)) : Option Json :=
  (d.find? (fun p => p.1 == k)).map (fun p => p.2)

/-- Python truthiness of a JSON value, as used by the checks of run_actions. -/
def pyTruthy : Json → Bool
  | .null => false
  | .bool b => b
  | .num n => n != 0
  | .str s => !s.isEmpty
  | .arr l => !l.isEmpty
  | .obj d => !d.isEmpty

/-- One operation issued against the live browser page. -/
inductive PageOp where
  | goto (url : Json)
  | click (selector : Json)
  | fill (selector : Json) (text : Json)
  | waitTimeout (ms : Json)
  | screenshot (path : Json)
  | info

/-- Python exceptions the program raises or observes.  invalidIntLiteral
stands for the ValueError raised by int(); unknownActionType for the
ValueError built from the unrecognised type tag; attributeError for the
AttributeError raised by calling .get on a non-dict value. -/
inductive PyErr where
  | valueError (msg : List Char)
  | invalidIntLiteral (token : List Char)
  | unknownActionType (tag : Option Json)
  | attributeError
  | runtimeError (msg : List Char)

/-- Tail of a Python base-10 int literal: digits with single underscores
allowed only between digits. -/
def intDigitTail : List Char → Bool
  | [] => true
  | '_' :: rest =>
    match rest with
    | c :: rest2 => c.isDigit && intDigitTail rest2
    | [] => false
  | c :: rest => c.isDigit && intDigitTail rest

/-- Value of the digit part of a Python int literal, none when malformed. -/
def pyDigits (s : List Char) : Option Nat :=
  match s with
  | [] => none
  | c :: rest =>
    if c.isDigit && intDigitTail rest then
      some ((s.filter (fun d => d != '_')).foldl (fun a d => a * 10 + (d.toNat - 48)) 0)
    else none

/-- Python int() applied to a whitespace-free token, base 10. -/
def pyInt (s : List Char) : Except PyErr Int :=
  match s with
  | '+' :: rest =>
    match pyDigits rest with
    | some n => .ok (Int.ofNat n)
    | none => .error (.invalidIntLiteral s)
  | '-' :: rest =>
    match pyDigits rest with
    | some n => .ok (-(Int.ofNat n : Int))
    | none => .error (.invalidIntLiteral s)
  | _ =>
    match pyDigits s with
    | some n => .ok (Int.ofNat n)
    | none => .error (.invalidIntLiteral s)

/-- Helper of splitWS: acc holds the characters of the current word in
reverse; a whitespace character closes the word, if one is open. -/
def splitWSAux : List Char → List Char → List (List Char)
  | [], acc => if acc.isEmpty then [] else [acc.reverse]
  | c :: rest, acc =>
    if pyIsSpace c then
      if acc.isEmpty then splitWSAux rest [] else acc.reverse :: splitWSAux rest []
    else splitWSAux rest (c :: acc)

/-- Python str.split() with no argument: split on runs of whitespace,
discarding empty pieces. -/
def splitWS (l : List Char) : List (List Char) := splitWSAux l []

/-- Python str.strip() with no argument: drop whitespace from both ends. -/
def pyStrip (l : List Char) : List Char :=
  ((l.dropWhile pyIsSpace).reverse.dropWhile pyIsSpace).reverse

/-- Python str.replace applied for the CRLF-to-LF normalisation: replace
every non-overlapping occurrence of "\r\n" by "\n", left to right. -/
def replaceCRLF : List Char → List Char
  | [] => []
  | [c] => [c]
  | c :: c2 :: rest =>
    if c = '\r' ∧ c2 = '\n' then '\n' :: replaceCRLF rest
    else c :: replaceCRLF (c2 :: rest)

/-- The body transformation of get_page_context: strip, normalise CRLF,
then truncate to 5000 characters with a trailing marker. -/
def bodyExcerpt (body_text : List Char) : List Char :=
  let t := replaceCRLF (pyStrip body_text)
  if 5000 < t.length then t.take 5000 ++ cs "\n..." else t

/-- The page snapshot built by get_page_context. -/
structure PageCtx where
  url : List Char
  title : List Char
  body : List Char

/-- get_page_context: title and body are read defensively (none models the
read raising, defaulted to the empty string); the body is stripped,
CRLF-normalised and truncated. -/
def get_page_context (url : List Char) (titleRes bodyRes : Option (List Char)) : PageCtx :=
  { url := url, title := titleRes.getD [], body := bodyExcerpt (bodyRes.getD []) }

/-- The fixed system message of build_prompt. -/
def SYSTEM_PROMPT : List Char := cs ("You are an automation planner for Chromium. Convert the user\x27s instruction into a\nJSON object with an \"actions\" array. Each action must be one of:\n- \x7b\"type\": \"open\", \"url\": \"https://...\"\x7d\n- \x7b\"type\": \"click\", \"selector\": \"css selector\"\x7d\n- \x7b\"type\": \"type\", \"selector\": \"css selector\", \"text\": \"...\"\x7d\n- \x7b\"type\": \"wait\", \"ms\": 1000\x7d\n- \x7b\"type\": \"screenshot\", \"path\": \"screenshot.png\"\x7d\n- \x7b\"type\": \"info\"\x7d\n\nOnly output JSON. No markdown.")

/-- build_prompt: system contract plus the labelled context lines and the
instruction, as a two-message conversation of (role, content) pairs. -/
def build_prompt (instruction : List Char) (page_context : PageCtx) :
    List (List Char × List Char) :=
  let user := cs "URL: " ++ page_context.url ++ cs "\nTitle: " ++ page_context.title ++
    cs "\nBody (trimmed):\n" ++ page_context.body ++ cs "\n\nInstruction: " ++ instruction
  [(cs "system", SYSTEM_PROMPT), (cs "user", user)]

/-- Message of the ValueError raised when the model output is not JSON. -/
def malformedMsg (exc raw : List Char) : List Char :=
  cs "Model output was not valid JSON: " ++ exc ++ cs "\nRaw: " ++ raw

/-- Message of the ValueError raised when the actions array is absent. -/
def schemaViolationMsg : List Char := cs "JSON must include an \x27actions\x27 array"

/-- extract_actions.  json.loads is external, so its outcome on the raw text
is passed in: error exc models a JSONDecodeError with message exc.  A parsed
non-dict raises AttributeError at data.get; a dict without a list under
the actions key raises the schema ValueError; otherwise the element list is
returned untouched. -/
def extract_actions (raw_text : List Char) (parsed : Except (List Char) Json) :
    Except PyErr (List Json) :=
  match parsed with
  | .error exc => .error (.valueError (malformedMsg exc raw_text))
  | .ok (.obj d) =>
    match jget (cs "actions") d with
    | some (.arr elems) => .ok elems
    | _ => .error (.valueError schemaViolationMsg)
  | .ok _ => .error .attributeError

/-- Attempt one page operation: the oracle models the browser and yields
the exception the operation raises, when it raises. -/
def attempt (oracle : PageOp → Option PyErr) (op : PageOp) : Except PyErr PageOp :=
  match oracle op with
  | some e => .error e
  | none => .ok op

/-- One iteration of the run_actions loop on a single action value: validate
the fields exactly as the source does, then perform the page operation. -/
def stepAction (oracle : PageOp → Option PyErr) (action : Json) : Except PyErr PageOp :=
  match action with
  | .obj d =>
    match jget (cs "type") d with
    | some (.str t) =>
      if t = cs "open" then
        match jget (cs "url") d with
        | some u =>
          if pyTruthy u then attempt oracle (.goto u)
          else .error (.valueError (cs "open action requires url"))
        | none => .error (.valueError (cs "open action requires url"))
      else if t = cs "click" then
        match jget (cs "selector") d with
        | some sel =>
          if pyTruthy sel then attempt oracle (.click sel)
          else .error (.valueError (cs "click action requires selector"))
        | none => .error (.valueError (cs "click action requires selector"))
      else if t = cs "type" then
        match jget (cs "selector") d with
        | some sel =>
          if pyTruthy sel then
            attempt oracle (.fill sel ((jget (cs "text") d).getD (.str [])))
          else .error (.valueError (cs "type action requires selector"))
        | none => .error (.valueError (cs "type action requires selector"))
      else if t = cs "wait" then
        attempt oracle (.waitTimeout ((jget (cs "ms") d).getD (.num 0)))
      else if t = cs "screenshot" then
        attempt oracle (.screenshot ((jget (cs "path") d).getD (.str (cs "screenshot.png"))))
      else if t = cs "info" then
        attempt oracle .info
      else .error (.unknownActionType (some (.str t)))
    | other => .error (.unknownActionType other)
  | _ => .error .attributeError

/-- run_actions: apply the actions in order; the first failure aborts the
loop.  The result is the trace of performed page operations together with
the exception that aborted the loop, when one did. -/
def run_actions (oracle : PageOp → Option PyErr) : List Json → List PageOp × Option PyErr
  | [] => ([], none)
  | a :: rest =>
    match stepAction oracle a with
    | .error e => ([], some e)
    | .ok op =>
      let r := run_actions oracle rest
      (op :: r.1, r.2)

/-- All actions of a list stepped in order, failing on the first bad one. -/
def stepAll (oracle : PageOp → Option PyErr) : List Json → Except PyErr (List PageOp)
  | [] => .ok []
  | a :: rest =>
    match stepAction oracle a with
    | .error e => .error e
    | .ok op =>
      match stepAll oracle rest with
      | .error e => .error e
      | .ok ops => .ok (op :: ops)

/-- The branch structure of parse_manual_command after tokenisation: the
original line is kept for the unknown fallback.  The error case models the
ValueError that int() raises on the wait argument. -/
def parse_from_parts (line : List Char) : List (List Char) → Except PyErr Json
  | [] => .ok (.obj [])
  | cmd :: rest =>
    if cmd = cs "open" ∧ 1 ≤ rest.length then
      .ok (.obj [(cs "type", .str (cs "open")), (cs "url", .str (rest.headD []))])
    else if cmd = cs "click" ∧ 1 ≤ rest.length then
      .ok (.obj [(cs "type", .str (cs "click")),
        (cs "selector", .str (List.intercalate (cs " ") rest))])
    else if cmd = cs "type" ∧ 2 ≤ rest.length then
      .ok (.obj [(cs "type", .str (cs "type")), (cs "selector", .str (rest.headD [])),
        (cs "text", .str (List.intercalate (cs " ") rest.tail))])
    else if cmd = cs "wait" ∧ 1 ≤ rest.length then
      match pyInt (rest.headD []) with
      | .error e => .error e
      | .ok n => .ok (.obj [(cs "type", .str (cs "wait")), (cs "ms", .num n)])
    else if cmd = cs "screenshot" ∧ 1 ≤ rest.length then
      .ok (.obj [(cs "type", .str (cs "screenshot")), (cs "path", .str (rest.headD []))])
    else if cmd = cs "info" then
      .ok (.obj [(cs "type", .str (cs "info"))])
    else if cmd = cs "chat" ∧ 1 ≤ rest.length then
      .ok (.obj [(cs "type", .str (cs "chat")),
        (cs "instruction", .str (List.intercalate (cs " ") rest))])
    else if cmd = cs "quit" ∨ cmd = cs "exit" then
      .ok (.obj [(cs "type", .str (cs "quit"))])
    else
      .ok (.obj [(cs "type", .str (cs "unknown")), (cs "raw", .str line)])

/-- parse_manual_command: strip and tokenise the line, then select on the
first token.  The error case is the uncaught ValueError from int(). -/
def parse_manual_command (line : List Char) : Except PyErr Json :=
  parse_from_parts line (splitWS (pyStrip line))

/-- The external collaborators of one turn: the page reads backing
get_page_context, the completion API, json.loads, and the browser oracle. -/
structure Env where
  url : List Char
  titleRes : Option (List Char)
  bodyRes : Option (List Char)
  callOpenai : List (List Char × List Char) → Except PyErr (List Char)
  parseJson : List Char → Except (List Char) Json
  oracle : PageOp → Option PyErr

/-- handle_chat: snapshot, prompt, model call, decode, execute.  The result
is the executed trace and the exception that aborted the turn, if any. -/
def handle_chat (env : Env) (instruction : List Char) : List PageOp × Option PyErr :=
  let ctx := get_page_context env.url env.titleRes env.bodyRes
  let messages := build_prompt instruction ctx
  match env.callOpenai messages with
  | .error e => ([], some e)
  | .ok raw =>
    match extract_actions raw (env.parseJson raw) with
    | .error e => ([], some e)
    | .ok actions => run_actions env.oracle actions

/-- Operator-visible loop output of one turn. -/
inductive Output where
  | chatError (e : PyErr)
  | commandError (e : PyErr)
  | usageHint

/-- Result of one iteration of the main read loop: still running with the
printed outputs, terminated by quit or end of input, or the process dying
from an uncaught exception. -/
inductive StepRes where
  | running (outs : List Output)
  | terminated
  | crashed (e : PyErr)

/-- command.get("instruction", "") restricted to string values, as the
chat branch of the loop uses it. -/
def jgetStrD (k : List Char) (d : List (List Char × Json)) : List Char :=
  match jget k d with
  | some (.str s) => s
  | _ => []

/-- The body of the main while loop on a parsed command dict: quit breaks,
chat runs the pipeline with errors caught and printed with the chat error
marker, unknown prints the usage hint, and anything else is executed as a
single action with errors caught and printed as command errors. -/
def dispatchObj (env : Env) (d : List (List Char × Json)) : StepRes :=
  match jget (cs "type") d with
  | some (.str t) =>
    if t = cs "quit" then .terminated
    else if t = cs "chat" then
      match (handle_chat env (jgetStrD (cs "instruction") d)).2 with
      | some e => .running [.chatError e]
      | none => .running []
    else if t = cs "unknown" then .running [.usageHint]
    else
      match (run_actions env.oracle [.obj d]).2 with
      | some e => .running [.commandError e]
      | none => .running []
  | _ =>
    match (run_actions env.oracle [.obj d]).2 with
    | some e => .running [.commandError e]
    | none => .running []

/-- The body of the main while loop after a command was parsed: an empty
(falsy) command is skipped silently. -/
def dispatch (env : Env) (cmd : Json) : StepRes :=
  if pyTruthy cmd = false then .running []
  else
    match cmd with
    | .obj d => dispatchObj env d
    | _ => .crashed .attributeError

/-- One iteration of the main read loop: none is end of input; the manual
parse happens outside any exception handler, so its exception crashes. -/
def mainStep (env : Env) : Option (List Char) → StepRes
  | none => .terminated
  | some line =>
    match parse_manual_command line with
    | .error e => .crashed e
    | .ok cmd => dispatch env cmd

/-- An oracle under which every page operation succeeds. -/
def oracleOk : PageOp → Option PyErr := fun _ => none

/-- A concrete environment: every page operation succeeds and the model
call fails with the missing-credential RuntimeError. -/
def envFail : Env :=
  { url := cs "https://example.com"
    titleRes := some (cs "Example")
    bodyRes := some (cs "hello")
    callOpenai := fun _ => .error (.runtimeError (cs "OPENAI_API_KEY is not set"))
    parseJson := fun _ => .error (cs "Expecting value")
    oracle := oracleOk }

/-- A well-formed open action used in concrete runs. -/
def openX : Json := .obj [(cs "type", .str (cs "open")), (cs "url", .str (cs "https://x"))]

/-- An action with an unrecognised type tag. -/
def bogusObj : Json := .obj [(cs "type", .str (cs "bogus"))]

/-- A well-formed info action. -/
def infoObj : Json := .obj [(cs "type", .str (cs "info"))]

/-! ### Parser branch lemmas -/

theorem parse_open (line u : List Char) (extra : List (List Char)) :
    parse_from_parts line (cs "open" :: u :: extra) =
      .ok (.obj [(cs "type", .str (cs "open")), (cs "url", .str u)]) := by
  simp +decide [parse_from_parts]

theorem parse_click (line : List Char) (rest : List (List Char)) (h : rest ≠ []) :
    parse_from_parts line (cs "click" :: rest) =
      .ok (.obj [(cs "type", .str (cs "click")),
        (cs "selector", .str (List.intercalate (cs " ") rest))]) := by
  have h1 : 1 ≤ rest.length := List.length_pos.mpr h
  simp +decide [parse_from_parts, h1]

theorem parse_type_cmd (line sel : List Char) (t : List (List Char)) (h : t ≠ []) :
    parse_from_parts line (cs "type" :: sel :: t) =
      .ok (.obj [(cs "type", .str (cs "type")), (cs "selector", .str sel),
        (cs "text", .str (List.intercalate (cs " ") t))]) := by
  have h1 : 1 ≤ t.length := List.length_pos.mpr h
  have h2 : 2 ≤ (sel :: t).length := by simp; omega
  simp +decide [parse_from_parts, h2, h]

theorem parse_wait_ok (line tok : List Char) (extra : List (List Char)) (n : Int)
    (h : pyInt tok = .ok n) :
    parse_from_parts line (cs "wait" :: tok :: extra) =
      .ok (.obj [(cs "type", .str (cs "wait")), (cs "ms", .num n)]) := by
  simp +decide [parse_from_parts, h]

theorem parse_wait_err (line tok : List Char) (extra : List (List Char)) (e : PyErr)
    (h : pyInt tok = .error e) :
    parse_from_parts line (cs "wait" :: tok :: extra) = .error e := by
  simp +decide [parse_from_parts, h]

theorem parse_screenshot (line u : List Char) (extra : List (List Char)) :
    parse_from_parts line (cs "screenshot" :: u :: extra) =
      .ok (.obj [(cs "type", .str (cs "screenshot")), (cs "path", .str u)]) := by
  simp +decide [parse_from_parts]

theorem parse_chat (line : List Char) (rest : List (List Char)) (h : rest ≠ []) :
    parse_from_parts line (cs "chat" :: rest) =
      .ok (.obj [(cs "type", .str (cs "chat")),
        (cs "instruction", .str (List.intercalate (cs " ") rest))]) := by
  have h1 : 1 ≤ rest.length := List.length_pos.mpr h
  simp +decide [parse_from_parts, h1]

/-- C7: the Manual Command Parser splits a line on whitespace and rejoins
multi-token tails with single spaces: the given type line yields
selector sel and text "hello world", wait 500 yields milliseconds 500, and
every click line with two or more tokens yields the remaining tokens
rejoined with single spaces as the selector. -/
theorem C7_manual_tokenization :
    parse_manual_command (cs "type sel hello world") =
      .ok (.obj [(cs "type", .str (cs "type")), (cs "selector", .str (cs "sel")),
        (cs "text", .str (cs "hello world"))]) ∧
    parse_manual_command (cs "wait 500") =
      .ok (.obj [(cs "type", .str (cs "wait")), (cs "ms", .num 500)]) ∧
    ∀ line rest, splitWS (pyStrip line) = cs "click" :: rest → rest ≠ [] →
      parse_manual_command line =
        .ok (.obj [(cs "type", .str (cs "click")),
          (cs "selector", .str (List.intercalate (cs " ") rest))]) := by
  refine ⟨rfl, rfl, ?_⟩
  intro line rest h hne
  unfold parse_manual_command
  rw [h]
  exact parse_click line rest hne

theorem C7_witness :
    parse_manual_command (cs "click a  b") =
      .ok (.obj [(cs "type", .str (cs "click")), (cs "selector", .str (cs "a b"))]) :=
  C7_manual_tokenization.2.2 (cs "click a  b") [cs "a", cs "b"] rfl (by decide)

/-- C10: for the manual commands open, wait and screenshot only the second
token is used and any further tokens are silently discarded: with any
extra tokens present, the parse result is built from the second token
alone. -/
theorem C10_extra_tokens_discarded :
    (∀ line, parse_manual_command line = parse_from_parts line (splitWS (pyStrip line))) ∧
    (∀ line u extra, parse_from_parts line (cs "open" :: u :: extra) =
      .ok (.obj [(cs "type", .str (cs "open")), (cs "url", .str u)])) ∧
    (∀ line u extra n, pyInt u = .ok n →
      parse_from_parts line (cs "wait" :: u :: extra) =
        .ok (.obj [(cs "type", .str (cs "wait")), (cs "ms", .num n)])) ∧
    (∀ line u extra, parse_from_parts line (cs "screenshot" :: u :: extra) =
      .ok (.obj [(cs "type", .str (cs "screenshot")), (cs "path", .str u)])) :=
  ⟨fun _ => rfl, parse_open, parse_wait_ok, parse_screenshot⟩

theorem C10_witness :
    parse_from_parts (cs "wait 7 9") (cs "wait" :: cs "7" :: [cs "9"]) =
      .ok (.obj [(cs "type", .str (cs "wait")), (cs "ms", .num 7)]) :=
  C10_extra_tokens_discarded.2.2.1 (cs "wait 7 9") (cs "7") [cs "9"] 7 rfl

/-- A wait action carrying negative milliseconds, as the parser builds it. -/
def waitNeg : Json := .obj [(cs "type", .str (cs "wait")), (cs "ms", .num (-5))]

/-- C4 counterexample: the line wait -5 is accepted by the manual parser
with milliseconds -5, and the executor passes the negative value to the
wait operation instead of rejecting it. -/
theorem C4_counterexample :
    parse_manual_command (cs "wait -5") = .ok waitNeg ∧
    run_actions oracleOk [waitNeg] = ([PageOp.waitTimeout (.num (-5))], none) :=
  ⟨rfl, rfl⟩

/-- C4 amended: no nonnegativity check exists anywhere: the manual parser
accepts any integer the int() parse yields, including negative ones, and
the executor passes the milliseconds value to the wait operation
unchecked. -/
theorem C4_amended :
    (∀ line tok extra n, pyInt tok = .ok n →
      parse_from_parts line (cs "wait" :: tok :: extra) =
        .ok (.obj [(cs "type", .str (cs "wait")), (cs "ms", .num n)])) ∧
    (∀ (oracle : PageOp → Option PyErr) (n : Int),
      oracle (PageOp.waitTimeout (.num n)) = none →
      stepAction oracle (.obj [(cs "type", .str (cs "wait")), (cs "ms", .num n)]) =
        .ok (PageOp.waitTimeout (.num n))) := by
  refine ⟨parse_wait_ok, ?_⟩
  intro oracle n h
  have hty : jget (cs "type") [(cs "type", Json.str (cs "wait")), (cs "ms", Json.num n)] =
      some (.str (cs "wait")) := rfl
  have hms : jget (cs "ms") [(cs "type", Json.str (cs "wait")), (cs "ms", Json.num n)] =
      some (.num n) := rfl
  simp +decide [stepAction, attempt, hty, hms, h]

theorem C4_witness :
    parse_from_parts (cs "wait -7") (cs "wait" :: cs "-7" :: []) =
      .ok (.obj [(cs "type", .str (cs "wait")), (cs "ms", .num (-7))]) :=
  C4_amended.1 (cs "wait -7") (cs "-7") [] (-7) rfl

/-! ### Executor lemmas -/

theorem run_actions_append_ok (oracle : PageOp → Option PyErr) :
    ∀ pre ops, stepAll oracle pre = .ok ops → ∀ rest,
      run_actions oracle (pre ++ rest) =
        (ops ++ (run_actions oracle rest).1, (run_actions oracle rest).2) := by
  intro pre
  induction pre with
  | nil =>
    intro ops h rest
    simp only [stepAll] at h
    cases h
    simp [run_actions]
  | cons a pre ih =>
    intro ops h rest
    cases h1 : stepAction oracle a with
    | error e => simp [stepAll, h1] at h
    | ok op =>
      cases h2 : stepAll oracle pre with
      | error e => simp [stepAll, h1, h2] at h
      | ok ops2 =>
        simp only [stepAll, h1, h2] at h
        cases h
        simp only [List.cons_append, run_actions, h1]
        simp only [List.append_eq]
        rw [ih ops2 h2 rest]

theorem run_actions_front_err (oracle : PageOp → Option PyErr)
    (pre : List Json) (bad : Json) (post : List Json) (ops : List PageOp) (e : PyErr)
    (h1 : stepAll oracle pre = .ok ops) (h2 : stepAction oracle bad = .error e) :
    run_actions oracle (pre ++ bad :: post) = (ops, some e) := by
  rw [run_actions_append_ok oracle pre ops h1]
  simp [run_actions, h2]

theorem run_actions_ok_stepAll (oracle : PageOp → Option PyErr) :
    ∀ actions tr, run_actions oracle actions = (tr, none) →
      stepAll oracle actions = .ok tr := by
  intro actions
  induction actions with
  | nil =>
    intro tr h
    simp only [run_actions] at h
    injection h with h2 h3
    subst h2
    rfl
  | cons a rest ih =>
    intro tr h
    cases h1 : stepAction oracle a with
    | error e => simp [run_actions, h1] at h
    | ok op =>
      simp only [run_actions, h1] at h
      injection h with h2 h3
      subst h2
      have hr : run_actions oracle rest = ((run_actions oracle rest).1, none) := by
        rw [← h3]
      have hall := ih (run_actions oracle rest).1 hr
      simp [stepAll, h1, hall]

theorem run_actions_err_split (oracle : PageOp → Option PyErr) :
    ∀ actions tr e, run_actions oracle actions = (tr, some e) →
      ∃ pre bad post, actions = pre ++ bad :: post ∧ stepAll oracle pre = .ok tr ∧
        stepAction oracle bad = .error e := by
  intro actions
  induction actions with
  | nil => intro tr e h; simp [run_actions] at h
  | cons a rest ih =>
    intro tr e h
    cases h1 : stepAction oracle a with
    | error e2 =>
      simp only [run_actions, h1] at h
      injection h with h2 h3
      injection h3 with h3
      subst h2
      subst h3
      exact ⟨[], a, rest, rfl, rfl, h1⟩
    | ok op =>
      simp only [run_actions, h1] at h
      injection h with h2 h3
      subst h2
      have hr : run_actions oracle rest = ((run_actions oracle rest).1, some e) := by
        rw [← h3]
      obtain ⟨pre, bad, post, hsplit, hall, hbad⟩ :=
        ih (run_actions oracle rest).1 e hr
      refine ⟨a :: pre, bad, post, by rw [hsplit]; rfl, ?_, hbad⟩
      simp [stepAll, h1, hall]

/-! ### Decoder lemmas -/

theorem extract_actions_ok (raw : List Char) (d : List (List Char × Json))
    (elems : List Json) (h : jget (cs "actions") d = some (.arr elems)) :
    extract_actions raw (.ok (.obj d)) = .ok elems := by
  simp [extract_actions, h]

theorem extract_actions_schema (raw : List Char) (d : List (List Char × Json))
    (h : ∀ l, jget (cs "actions") d ≠ some (.arr l)) :
    extract_actions raw (.ok (.obj d)) = .error (.valueError schemaViolationMsg) := by
  cases h2 : jget (cs "actions") d with
  | none => simp [extract_actions, h2]
  | some v =>
    cases v <;> first
      | exact absurd h2 (h _)
      | simp [extract_actions, h2]

theorem extract_actions_nonobj (raw : List Char) (j : Json)
    (h : ∀ d, j ≠ .obj d) :
    extract_actions raw (.ok j) = .error .attributeError := by
  cases j with
  | obj d => exact absurd rfl (h d)
  | null => rfl
  | bool b => rfl
  | num n => rfl
  | str s => rfl
  | arr l => rfl

theorem stepAction_unknown_tag (oracle : PageOp → Option PyErr) (t : List Char)
    (d : List (List Char × Json)) (h : jget (cs "type") d = some (.str t))
    (h6 : t ∉ [cs "open", cs "click", cs "type", cs "wait", cs "screenshot", cs "info"]) :
    stepAction oracle (.obj d) = .error (.unknownActionType (some (.str t))) := by
  simp only [List.mem_cons, List.not_mem_nil, or_false, not_or] at h6
  obtain ⟨n1, n2, n3, n4, n5, n6⟩ := h6
  simp only [stepAction, h]
  rw [if_neg n1, if_neg n2, if_neg n3, if_neg n4, if_neg n5, if_neg n6]

theorem stepAction_open_no_url (oracle : PageOp → Option PyErr)
    (d : List (List Char × Json)) (h : jget (cs "type") d = some (.str (cs "open")))
    (hu : ∀ u, jget (cs "url") d = some u → pyTruthy u = false) :
    stepAction oracle (.obj d) = .error (.valueError (cs "open action requires url")) := by
  simp only [stepAction, h, if_true]
  cases h2 : jget (cs "url") d with
  | none => rfl
  | some u => simp [hu u h2]

/-- C8: the Action Executor applies actions strictly in list order and on
the first action whose fields are invalid or whose session operation fails
it halts and returns that error: a run ending without error stepped every
action in order, a run ending in an error decomposes into a fully executed
fully executed front segment whose operations are exactly the returned trace, the failing action,
and an unexecuted suffix; an Open whose url is missing or falsy fails the
defensive re-check before any navigation. -/
theorem C8_executor_first_failure_halts :
    ∀ (oracle : PageOp → Option PyErr) (actions : List Json) (tr : List PageOp),
      (run_actions oracle actions = (tr, none) → stepAll oracle actions = .ok tr) ∧
      (∀ e, run_actions oracle actions = (tr, some e) →
        ∃ pre bad post, actions = pre ++ bad :: post ∧ stepAll oracle pre = .ok tr ∧
          stepAction oracle bad = .error e) ∧
      (∀ d, jget (cs "type") d = some (.str (cs "open")) →
        (∀ u, jget (cs "url") d = some u → pyTruthy u = false) →
        stepAction oracle (.obj d) = .error (.valueError (cs "open action requires url"))) :=
  fun oracle actions tr =>
    ⟨run_actions_ok_stepAll oracle actions tr,
     fun e => run_actions_err_split oracle actions tr e,
     fun d => stepAction_open_no_url oracle d⟩

theorem C8_witness :
    stepAll oracleOk [openX, infoObj] =
      .ok [PageOp.goto (.str (cs "https://x")), PageOp.info] :=
  (C8_executor_first_failure_halts oracleOk [openX, infoObj]
    [PageOp.goto (.str (cs "https://x")), PageOp.info]).1 rfl

/-- C1 counterexample: for the model output with a valid open action at
position 0 and an invalid action at position 1, decoding succeeds (it does
not fail), and executing the batch performs the navigation of position 0
before raising on position 1 — not zero actions. -/
theorem C1_counterexample :
    extract_actions (cs "raw")
        (.ok (.obj [(cs "actions", .arr [openX, bogusObj])])) =
      .ok [openX, bogusObj] ∧
    run_actions oracleOk [openX, bogusObj] =
      ([PageOp.goto (.str (cs "https://x"))],
        some (.unknownActionType (some (.str (cs "bogus"))))) :=
  ⟨rfl, rfl⟩

/-- C1 amended: decoding only checks that the parsed JSON is an object
with a list under the actions key and returns every element unvalidated;
an invalid element at position k makes run_actions raise when it reaches
that element, after the valid front segment before k has fully executed (its
effects retained) and with nothing after k executed. -/
theorem C1_amended :
    ∀ (oracle : PageOp → Option PyErr) (raw : List Char)
      (d : List (List Char × Json)) (elems : List Json)
      (pre : List Json) (bad : Json) (post : List Json) (ops : List PageOp) (e : PyErr),
      jget (cs "actions") d = some (.arr elems) →
      elems = pre ++ bad :: post →
      stepAll oracle pre = .ok ops →
      stepAction oracle bad = .error e →
      extract_actions raw (.ok (.obj d)) = .ok elems ∧
      run_actions oracle elems = (ops, some e) := by
  intro oracle raw d elems pre bad post ops e hj hsplit hpre hbad
  refine ⟨extract_actions_ok raw d elems hj, ?_⟩
  rw [hsplit]
  exact run_actions_front_err oracle pre bad post ops e hpre hbad

theorem C1_witness :
    extract_actions (cs "r") (.ok (.obj [(cs "actions", .arr [infoObj, bogusObj])])) =
      .ok [infoObj, bogusObj] ∧
    run_actions oracleOk [infoObj, bogusObj] =
      ([PageOp.info], some (.unknownActionType (some (.str (cs "bogus"))))) :=
  C1_amended oracleOk (cs "r") [(cs "actions", .arr [infoObj, bogusObj])]
    [infoObj, bogusObj] [infoObj] bogusObj [] [PageOp.info]
    (.unknownActionType (some (.str (cs "bogus")))) rfl rfl rfl rfl

/-- C3 counterexample: an action with the unrecognised type tag bogus is
accepted by the decoder, which returns it unvalidated — decoding the batch
does not fail on a seventh shape. -/
theorem C3_counterexample :
    extract_actions (cs "x") (.ok (.obj [(cs "actions", .arr [bogusObj])])) =
      .ok [bogusObj] :=
  rfl

/-- C3 amended: the decoder performs no per-element shape validation and
returns any element of any shape; the six-shape check lives in the
executor, which fails with an unknown-action-type error only when the
offending element is reached. -/
theorem C3_amended :
    (∀ raw d elems, jget (cs "actions") d = some (.arr elems) →
      extract_actions raw (.ok (.obj d)) = .ok elems) ∧
    (∀ (oracle : PageOp → Option PyErr) t d,
      jget (cs "type") d = some (.str t) →
      t ∉ [cs "open", cs "click", cs "type", cs "wait", cs "screenshot", cs "info"] →
      stepAction oracle (.obj d) = .error (.unknownActionType (some (.str t)))) :=
  ⟨extract_actions_ok, stepAction_unknown_tag⟩

theorem C3_witness :
    stepAction oracleOk (.obj [(cs "type", .str (cs "hover"))]) =
      .error (.unknownActionType (some (.str (cs "hover")))) :=
  C3_amended.2 oracleOk (cs "hover") [(cs "type", .str (cs "hover"))] rfl (by decide)

/-- C5 counterexample: a parsed JSON value that is not an object (here the
empty array) makes extract_actions fail with an AttributeError, not with
the SchemaViolation ValueError message the claim requires. -/
theorem C5_counterexample :
    extract_actions (cs "[]") (.ok (.arr [])) = .error .attributeError ∧
    (Except.error PyErr.attributeError ≠
      (Except.error (PyErr.valueError schemaViolationMsg) : Except PyErr (List Json))) :=
  ⟨rfl, by intro h; injection h with h2; exact PyErr.noConfusion h2⟩

/-- C5 amended: on a JSON parse failure the decoder raises a ValueError
carrying the parse error and the raw text; on a parsed object without a
list under the actions key it raises the ValueError with the schema
message; on a parsed non-object it raises AttributeError instead; on an
object with a valid actions array it returns exactly that element list. -/
theorem C5_amended :
    (∀ raw exc, extract_actions raw (.error exc) =
      .error (.valueError (malformedMsg exc raw))) ∧
    (∀ raw d, (∀ l, jget (cs "actions") d ≠ some (.arr l)) →
      extract_actions raw (.ok (.obj d)) = .error (.valueError schemaViolationMsg)) ∧
    (∀ raw j, (∀ d, j ≠ .obj d) →
      extract_actions raw (.ok j) = .error .attributeError) ∧
    (∀ raw d elems, jget (cs "actions") d = some (.arr elems) →
      extract_actions raw (.ok (.obj d)) = .ok elems) :=
  ⟨fun _ _ => rfl, extract_actions_schema, extract_actions_nonobj, extract_actions_ok⟩

theorem C5_witness :
    extract_actions (cs "null") (.ok .null) = .error .attributeError :=
  C5_amended.2.2.1 (cs "null") .null (by intro d h; exact Json.noConfusion h)

/-! ### Strip, CRLF normalisation and truncation lemmas -/

theorem head?_dropWhile_false (p : Char → Bool) (l : List Char) (c : Char)
    (h : (l.dropWhile p).head? = some c) : p c = false := by
  have h2 := List.head?_dropWhile_not p l
  rw [h] at h2
  exact h2

theorem dropWhile_eq_self_of_head (p : Char → Bool) (l : List Char)
    (h : ∀ c, l.head? = some c → p c = false) : l.dropWhile p = l := by
  cases l with
  | nil => rfl
  | cons a t => rw [List.dropWhile_cons, if_neg (by simp [h a rfl])]

theorem pyStrip_head? (l : List Char) (c : Char) (h : (pyStrip l).head? = some c) :
    pyIsSpace c = false := by
  unfold pyStrip at h
  rw [List.head?_reverse] at h
  obtain ⟨pre, hpre⟩ :=
    (List.dropWhile_suffix pyIsSpace :
      (l.dropWhile pyIsSpace).reverse.dropWhile pyIsSpace <:+ (l.dropWhile pyIsSpace).reverse)
  have hne : (l.dropWhile pyIsSpace).reverse.dropWhile pyIsSpace ≠ [] := by
    intro hnil
    rw [hnil] at h
    simp at h
  have h2 : (l.dropWhile pyIsSpace).reverse.getLast? = some c := by
    rw [← hpre, List.getLast?_append_of_ne_nil pre hne]
    exact h
  rw [List.getLast?_reverse] at h2
  exact head?_dropWhile_false pyIsSpace l c h2

theorem pyStrip_getLast? (l : List Char) (c : Char) (h : (pyStrip l).getLast? = some c) :
    pyIsSpace c = false := by
  unfold pyStrip at h
  rw [List.getLast?_reverse] at h
  exact head?_dropWhile_false pyIsSpace _ c h

theorem pyStrip_eq_self (l : List Char)
    (hh : ∀ c, l.head? = some c → pyIsSpace c = false)
    (hl : ∀ c, l.getLast? = some c → pyIsSpace c = false) : pyStrip l = l := by
  unfold pyStrip
  rw [dropWhile_eq_self_of_head _ l hh]
  rw [dropWhile_eq_self_of_head _ l.reverse
    (fun c hc => hl c (by rwa [List.head?_reverse] at hc))]
  exact List.reverse_reverse l

theorem replaceCRLF_eq_nil_iff (l : List Char) : replaceCRLF l = [] ↔ l = [] := by
  cases l with
  | nil => simp [replaceCRLF]
  | cons a t =>
    cases t with
    | nil => simp [replaceCRLF]
    | cons b t2 =>
      simp only [replaceCRLF]
      split <;> simp

theorem replaceCRLF_crlf (rest : List Char) :
    replaceCRLF ('\r' :: '\n' :: rest) = '\n' :: replaceCRLF rest := rfl

theorem replaceCRLF_cons_ne (a b : Char) (rest : List Char)
    (h : ¬(a = '\r' ∧ b = '\n')) :
    replaceCRLF (a :: b :: rest) = a :: replaceCRLF (b :: rest) := by
  rw [replaceCRLF]
  exact if_neg h

theorem head?_replaceCRLF (l : List Char) (c : Char) (h : l.head? = some c)
    (hc : pyIsSpace c = false) : (replaceCRLF l).head? = some c := by
  cases l with
  | nil => simp at h
  | cons a t =>
    have ha : a = c := by simpa using h
    cases t with
    | nil => simp [replaceCRLF, ha]
    | cons b t2 =>
      have hab : ¬(a = '\r' ∧ b = '\n') := by
        rintro ⟨h1, -⟩
        rw [h1] at ha
        rw [← ha] at hc
        exact absurd hc (by decide)
      rw [replaceCRLF_cons_ne a b t2 hab]
      simp [ha]

theorem getLast?_replaceCRLF : ∀ (l : List Char) (c : Char), l.getLast? = some c →
    pyIsSpace c = false → (replaceCRLF l).getLast? = some c := by
  intro l
  induction l using replaceCRLF.induct with
  | case1 => intro c h hc; simp at h
  | case2 a =>
    intro c h hc
    simp only [List.getLast?_singleton, Option.some.injEq] at h
    subst h
    simp [replaceCRLF]
  | case3 a b rest hcond ih =>
    intro c h hc
    obtain ⟨h1, h2⟩ := hcond
    subst h1
    subst h2
    cases rest with
    | nil =>
      simp only [List.getLast?_cons_cons, List.getLast?_singleton, Option.some.injEq] at h
      subst h
      exact absurd hc (by decide)
    | cons r rs =>
      rw [List.getLast?_cons_cons, List.getLast?_cons_cons] at h
      have hrep := ih c h hc
      rw [replaceCRLF_crlf]
      cases hrl : replaceCRLF (r :: rs) with
      | nil => rw [hrl] at hrep; simp at hrep
      | cons x xs =>
        rw [hrl] at hrep
        rw [List.getLast?_cons_cons]
        exact hrep
  | case4 a b rest hcond ih =>
    intro c h hc
    rw [List.getLast?_cons_cons] at h
    have hrep := ih c h hc
    rw [replaceCRLF_cons_ne a b rest hcond]
    cases hrl : replaceCRLF (b :: rest) with
    | nil => rw [hrl] at hrep; simp at hrep
    | cons x xs =>
      rw [hrl] at hrep
      rw [List.getLast?_cons_cons]
      exact hrep

theorem replaceCRLF_eq_self : ∀ l : List Char, '\r' ∉ l → replaceCRLF l = l := by
  intro l
  induction l using replaceCRLF.induct with
  | case1 => intro h; rfl
  | case2 a => intro h; rfl
  | case3 a b rest hcond ih =>
    intro h
    exact absurd (by rw [hcond.1]; exact List.mem_cons_self _ _) h
  | case4 a b rest hcond ih =>
    intro h
    rw [replaceCRLF_cons_ne a b rest hcond]
    rw [ih (fun hm => h (List.mem_cons_of_mem a hm))]

theorem head?_take_pos (l : List Char) (n : Nat) (h : 0 < n) :
    (l.take n).head? = l.head? := by
  cases l with
  | nil => simp
  | cons a t =>
    cases n with
    | zero => omega
    | succ m => simp

theorem head?_replace_strip (b : List Char) (c : Char)
    (h : (replaceCRLF (pyStrip b)).head? = some c) : pyIsSpace c = false := by
  cases hs : (pyStrip b).head? with
  | none =>
    have hnil : pyStrip b = [] := by
      cases hps : pyStrip b with
      | nil => rfl
      | cons x xs => rw [hps] at hs; simp at hs
    rw [hnil] at h
    simp [replaceCRLF] at h
  | some c0 =>
    have hc0 : pyIsSpace c0 = false := pyStrip_head? b c0 hs
    have h2 := head?_replaceCRLF (pyStrip b) c0 hs hc0
    rw [h2] at h
    injection h with h
    subst h
    exact hc0

theorem getLast?_replace_strip (b : List Char) (c : Char)
    (h : (replaceCRLF (pyStrip b)).getLast? = some c) : pyIsSpace c = false := by
  cases hs : (pyStrip b).getLast? with
  | none =>
    rw [List.getLast?_eq_none_iff] at hs
    rw [hs] at h
    simp [replaceCRLF] at h
  | some c0 =>
    have hc0 : pyIsSpace c0 = false := pyStrip_getLast? b c0 hs
    have h2 := getLast?_replaceCRLF (pyStrip b) c0 hs hc0
    rw [h2] at h
    injection h with h
    subst h
    exact hc0

theorem bodyExcerpt_head? (b : List Char) (c : Char)
    (h : (bodyExcerpt b).head? = some c) : pyIsSpace c = false := by
  simp only [bodyExcerpt] at h
  by_cases hlen : 5000 < (replaceCRLF (pyStrip b)).length
  · rw [if_pos hlen] at h
    rw [List.head?_append, head?_take_pos _ 5000 (by omega)] at h
    cases hs : (replaceCRLF (pyStrip b)).head? with
    | none =>
      rw [hs] at h
      have : replaceCRLF (pyStrip b) = [] := by
        cases hps : replaceCRLF (pyStrip b) with
        | nil => rfl
        | cons x xs => rw [hps] at hs; simp at hs
      rw [this] at hlen
      simp at hlen
    | some c0 =>
      rw [hs] at h
      have h2 : some c0 = some c := h
      injection h2 with h2
      subst h2
      exact head?_replace_strip b c0 hs
  · rw [if_neg hlen] at h
    exact head?_replace_strip b c h

theorem bodyExcerpt_getLast? (b : List Char) (c : Char)
    (h : (bodyExcerpt b).getLast? = some c) : pyIsSpace c = false := by
  simp only [bodyExcerpt] at h
  by_cases hlen : 5000 < (replaceCRLF (pyStrip b)).length
  · rw [if_pos hlen] at h
    rw [List.getLast?_append_of_ne_nil _ (by decide)] at h
    have hm : (cs "\n...").getLast? = some '.' := rfl
    rw [hm] at h
    injection h with h
    subst h
    decide
  · rw [if_neg hlen] at h
    exact getLast?_replace_strip b c h

/-- C9: get_page_context strips leading and trailing whitespace from the
body text before CRLF normalisation and truncation — the excerpt is the
truncation of the CRLF-normalised strip of the body — and consequently the
body excerpt never begins or ends with a whitespace character, whatever
body the page reports. -/
theorem C9_excerpt_edges :
    (∀ body : List Char, bodyExcerpt body =
      (if 5000 < (replaceCRLF (pyStrip body)).length
       then (replaceCRLF (pyStrip body)).take 5000 ++ cs "\n..."
       else replaceCRLF (pyStrip body))) ∧
    (∀ (url : List Char) (titleRes bodyRes : Option (List Char)) (c : Char),
      ((get_page_context url titleRes bodyRes).body.head? = some c →
        pyIsSpace c = false) ∧
      ((get_page_context url titleRes bodyRes).body.getLast? = some c →
        pyIsSpace c = false)) :=
  ⟨fun _ => rfl,
   fun url titleRes bodyRes c =>
     ⟨bodyExcerpt_head? (bodyRes.getD []) c, bodyExcerpt_getLast? (bodyRes.getD []) c⟩⟩

theorem C9_witness : pyIsSpace 'h' = false :=
  (C9_excerpt_edges.2 (cs "u") (some (cs "t")) (some (cs "  hi  ")) 'h').1 rfl

/-- A 100-character body whose last two characters are CR LF. -/
def bodyC : List Char := List.replicate 98 'a' ++ ['\r', '\n']

/-- C6 counterexample: a body of exactly 100 characters is not passed
through unchanged — the trailing CR LF is stripped, so the snapshot body
has only 98 characters. -/
theorem C6_counterexample :
    bodyC.length = 100 ∧
    (get_page_context (cs "u") (some (cs "t")) (some bodyC)).body =
      List.replicate 98 'a' ∧
    (get_page_context (cs "u") (some (cs "t")) (some bodyC)).body ≠ bodyC :=
  ⟨by decide, by decide, by decide⟩

/-- C6 amended: the excerpt is computed by stripping, then CRLF
normalisation, then truncation: whenever the stripped and normalised body
exceeds 5000 characters the excerpt is exactly its first 5000 characters
followed by the marker, and a 100-character body with no leading or
trailing whitespace and no CR passes through unchanged. -/
theorem C6_amended :
    (∀ (url : List Char) (t : Option (List Char)) (body : List Char),
      5000 < (replaceCRLF (pyStrip body)).length →
      (get_page_context url t (some body)).body =
        (replaceCRLF (pyStrip body)).take 5000 ++ cs "\n...") ∧
    (∀ (url : List Char) (t : Option (List Char)) (body : List Char) (c1 c2 : Char),
      body.length = 100 →
      body.head? = some c1 → pyIsSpace c1 = false →
      body.getLast? = some c2 → pyIsSpace c2 = false →
      '\r' ∉ body →
      (get_page_context url t (some body)).body = body) := by
  constructor
  · intro url t body h
    show bodyExcerpt body = _
    simp only [bodyExcerpt]
    rw [if_pos h]
  · intro url t body c1 c2 hlen hh hc1 hl hc2 hr
    show bodyExcerpt body = body
    have hstrip : pyStrip body = body := pyStrip_eq_self body
      (fun c hc => by rw [hh] at hc; injection hc with hc; subst hc; exact hc1)
      (fun c hc => by rw [hl] at hc; injection hc with hc; subst hc; exact hc2)
    have hrep : replaceCRLF body = body := replaceCRLF_eq_self body hr
    simp only [bodyExcerpt, hstrip, hrep]
    rw [if_neg (by rw [hlen]; decide)]

theorem C6_witness :
    (get_page_context (cs "u") (some []) (some (List.replicate 100 'b'))).body =
      List.replicate 100 'b' :=
  C6_amended.2 (cs "u") (some []) (List.replicate 100 'b') 'b' 'b'
    (by decide) (by decide) (by decide) (by decide) (by decide) (by decide)

/-! ### Session loop lemmas -/

theorem parse_from_parts_obj (line : List Char) :
    ∀ parts cmdJ, parse_from_parts line parts = .ok cmdJ → ∃ d, cmdJ = .obj d := by
  intro parts cmdJ h
  cases parts with
  | nil =>
    injection h with h
    exact ⟨[], h.symm⟩
  | cons cmd rest =>
    simp only [parse_from_parts] at h
    repeat' split at h
    all_goals first
      | (injection h with h; exact ⟨_, h.symm⟩)
      | exact Except.noConfusion h

theorem dispatchObj_cases (env : Env) (d : List (List Char × Json)) :
    (∃ outs, dispatchObj env d = .running outs) ∨ dispatchObj env d = .terminated := by
  unfold dispatchObj
  split
  · split
    · exact .inr rfl
    · split
      · split
        · exact .inl ⟨_, rfl⟩
        · exact .inl ⟨_, rfl⟩
      · split
        · exact .inl ⟨_, rfl⟩
        · split
          · exact .inl ⟨_, rfl⟩
          · exact .inl ⟨_, rfl⟩
  · split
    · exact .inl ⟨_, rfl⟩
    · exact .inl ⟨_, rfl⟩

theorem dispatchObj_terminated (env : Env) (d : List (List Char × Json))
    (h : dispatchObj env d = .terminated) :
    jget (cs "type") d = some (.str (cs "quit")) := by
  unfold dispatchObj at h
  split at h
  · rename_i t hty
    split at h
    · rename_i hq
      rw [hq] at hty
      exact hty
    · split at h
      · split at h <;> exact StepRes.noConfusion h
      · split at h
        · exact StepRes.noConfusion h
        · split at h <;> exact StepRes.noConfusion h
  · split at h <;> exact StepRes.noConfusion h

theorem dispatchObj_tag (env : Env) (d : List (List Char × Json)) (t : List Char)
    (h : jget (cs "type") d = some (.str t)) :
    dispatchObj env d =
      (if t = cs "quit" then .terminated
       else if t = cs "chat" then
         match (handle_chat env (jgetStrD (cs "instruction") d)).2 with
         | some e => .running [.chatError e]
         | none => .running []
       else if t = cs "unknown" then .running [.usageHint]
       else
         match (run_actions env.oracle [.obj d]).2 with
         | some e => .running [.commandError e]
         | none => .running []) := by
  unfold dispatchObj
  rw [h]

/-- The dict the parser builds for a chat line. -/
def chatCmd (instr : List Char) : Json :=
  .obj [(cs "type", .str (cs "chat")), (cs "instruction", .str instr)]

/-- C2 counterexample: the operator line wait abc raises the int()
ValueError inside parse_manual_command, outside every try block of the
loop, so the iteration ends in the crashed state — the process dies from
a manual-syntax error, which is neither quit nor end of input. -/
theorem C2_counterexample :
    mainStep envFail (some (cs "wait abc")) =
      .crashed (.invalidIntLiteral (cs "abc")) ∧
    (StepRes.crashed (.invalidIntLiteral (cs "abc")) ≠ StepRes.terminated) :=
  ⟨rfl, by intro h; exact StepRes.noConfusion h⟩

/-- C2 amended: end of input terminates the loop; every line whose manual
parse returns normally leaves the loop running or, exactly for a quit
command, terminates it — chat pipeline errors are printed as chat errors
and manual execution errors as command errors, with the loop still
running; but a wait line whose argument int() rejects raises outside the
turn handlers and crashes the process. -/
theorem C2_amended :
    (∀ env, mainStep env none = .terminated) ∧
    (∀ (env : Env) line cmdJ, parse_manual_command line = .ok cmdJ →
      (∃ outs, mainStep env (some line) = .running outs) ∨
        mainStep env (some line) = .terminated) ∧
    (∀ (env : Env) line, mainStep env (some line) = .terminated →
      ∃ d, parse_manual_command line = .ok (.obj d) ∧
        jget (cs "type") d = some (.str (cs "quit"))) ∧
    (∀ (env : Env) line instr e,
      parse_manual_command line = .ok (chatCmd instr) →
      (handle_chat env instr).2 = some e →
      mainStep env (some line) = .running [.chatError e]) ∧
    (∀ (env : Env) line d t e,
      parse_manual_command line = .ok (.obj d) →
      jget (cs "type") d = some (.str t) →
      t ≠ cs "quit" → t ≠ cs "chat" → t ≠ cs "unknown" →
      d ≠ [] →
      (run_actions env.oracle [.obj d]).2 = some e →
      mainStep env (some line) = .running [.commandError e]) := by
  refine ⟨fun _ => rfl, ?_, ?_, ?_, ?_⟩
  · intro env line cmdJ h
    obtain ⟨d, hd⟩ := parse_from_parts_obj line (splitWS (pyStrip line)) cmdJ h
    subst hd
    simp only [mainStep, h]
    unfold dispatch
    by_cases ht : pyTruthy (.obj d) = false
    · rw [if_pos ht]
      exact .inl ⟨[], rfl⟩
    · rw [if_neg ht]
      exact dispatchObj_cases env d
  · intro env line h
    cases hp : parse_manual_command line with
    | error e =>
      simp only [mainStep, hp] at h
      exact StepRes.noConfusion h
    | ok cmdJ =>
      obtain ⟨d, hd⟩ := parse_from_parts_obj line (splitWS (pyStrip line)) cmdJ hp
      subst hd
      simp only [mainStep, hp] at h
      unfold dispatch at h
      by_cases ht : pyTruthy (.obj d) = false
      · rw [if_pos ht] at h
        exact absurd h (by intro h2; exact StepRes.noConfusion h2)
      · rw [if_neg ht] at h
        exact ⟨d, rfl, dispatchObj_terminated env d h⟩
  · intro env line instr e hp hchat
    simp only [mainStep, hp]
    have hred : dispatch env (chatCmd instr) =
        match (handle_chat env instr).2 with
        | some e2 => StepRes.running [.chatError e2]
        | none => StepRes.running [] := rfl
    rw [hred, hchat]
  · intro env line d t e hp hty hq hc hu hne hr
    simp only [mainStep, hp]
    unfold dispatch
    have htr : pyTruthy (.obj d) = true := by
      cases d with
      | nil => exact absurd rfl hne
      | cons p ps => rfl
    rw [if_neg (by rw [htr]; intro h2; exact Bool.noConfusion h2)]
    show dispatchObj env d = _
    rw [dispatchObj_tag env d t hty, if_neg hq, if_neg hc, if_neg hu, hr]

theorem C2_witness :
    mainStep envFail (some (cs "chat hi")) =
      .running [.chatError (.runtimeError (cs "OPENAI_API_KEY is not set"))] :=
  C2_amended.2.2.2.1 envFail (cs "chat hi") (cs "hi")
    (.runtimeError (cs "OPENAI_API_KEY is not set")) rfl rfl

end Chrome
